import Mathlib

/-!
Shallow embedding of the simulation core of the worms-style artillery game
(`main.cpp`): the destructible terrain grid (`Terrain::destroy`,
`Terrain::checkCollision`), the per-tick worm physics (gravity, vertical
integration, the upward depenetration loop), the projectile lifecycle
(integration under gravity and wind, out-of-bounds removal, terrain-impact
detonation), and the explosion damage/knockback application to worms.

Modelling conventions:
* C++ `float` arithmetic is idealised as exact rational arithmetic (`ℚ`).
  All constants of the program (0.2f, 0.03f, 2.0f, …) are exactly
  representable intentions of the source, so the idealisation only removes
  rounding noise; no claim in scope depends on rounding.
* `static_cast<int>` on a float truncates toward zero: `cppInt`.
* C++ `int` division truncates toward zero: `Int.tdiv`.
* `sqrt` (libm) is kept as an explicit function parameter `sq : ℚ → ℚ` of the
  definitions that call it; theorems constrain it exactly at the arguments
  where it is evaluated (e.g. `sq 0 = 0`, `sq 400 = 20`), which is true of
  the IEEE `sqrtf` at those perfect squares.
* The one place the C++ code can produce a NaN — the knockback division
  `dx / distance` when `distance == 0` — is modelled by returning `none`
  (an undefined worm update), since a NaN velocity is not a rational number.
* Comparisons of the form `sqrt(s) < r` with integer `s`, `r` are embedded as
  `0 ≤ r ∧ s < r*r`, which is exactly equivalent for the real square root and
  is exact for `sqrtf` at every value the program reaches.
-/

attribute [local semireducible] Rat.mul Rat.add Rat.inv Rat.sub

namespace WormsDemo

/-- The C++ `static_cast<int>` on a float: truncation toward zero. -/
def cppInt (q : ℚ) : Int := if q < 0 then ⌈q⌉ else ⌊q⌋

/-- An SDL_FRect: position and extent, rational-valued. -/
structure QRect where
  x : ℚ
  y : ℚ
  w : ℚ
  h : ℚ
deriving DecidableEq

/-- The SDL_HasRectIntersectionFloat test: both rectangles non-degenerate and the
open intervals strictly overlap on both axes (touching edges do not count). -/
def rectsOverlap (A B : QRect) : Prop :=
  0 ≤ A.w ∧ 0 ≤ A.h ∧ 0 ≤ B.w ∧ 0 ≤ B.h ∧
  max A.x B.x < min (A.x + A.w) (B.x + B.w) ∧
  max A.y B.y < min (A.y + A.h) (B.y + B.h)

instance (A B : QRect) : Decidable (rectsOverlap A B) := by
  unfold rectsOverlap; infer_instance

/-- The terrain occupancy grid (`struct Terrain`): `cols × rows` cells of
`TERRAIN_SIZE = 10` world units; `blocks gx gy` is the occupancy of column
`gx`, row `gy` (only indices in `[0, cols) × [0, rows)` are ever touched by
the program; the functional model carries the others inertly). -/
structure Terrain where
  cols : Int
  rows : Int
  blocks : Int → Int → Bool

/-- The axis-aligned square of terrain cell `(gx, gy)`, side `TERRAIN_SIZE = 10`. -/
def cellRect (gx gy : Int) : QRect :=
  ⟨((10 * gx : Int) : ℚ), ((10 * gy : Int) : ℚ), 10, 10⟩

/-- The `Terrain::checkCollision` query: clamp the rectangle's cell range to grid
extents, then report whether some occupied cell in the range strictly
intersects the rectangle (the C++ loop short-circuits on the first hit;
the result is this existential). -/
def Terrain.checkCollision (t : Terrain) (r : QRect) : Bool :=
  decide (∃ gx ∈ Finset.Icc (max 0 ((cppInt r.x).tdiv 10))
                            (min (t.cols - 1) ((cppInt (r.x + r.w)).tdiv 10)),
          ∃ gy ∈ Finset.Icc (max 0 ((cppInt r.y).tdiv 10))
                            (min (t.rows - 1) ((cppInt (r.y + r.h)).tdiv 10)),
          t.blocks gx gy = true ∧ rectsOverlap r (cellRect gx gy))

/-- The `Terrain::destroy` carve: clamp the square bounding region of the blast to grid
extents, then clear every cell in it whose center `(10·gx+5, 10·gy+5)` lies at
Euclidean distance `< radius` from the center (`sqrt(dx²+dy²) < radius` is
embedded as `0 ≤ radius ∧ dx²+dy² < radius²`, its exact integer equivalent). -/
def Terrain.destroy (t : Terrain) (centerX centerY radius : Int) : Terrain :=
  { t with blocks := fun gx gy =>
      if max 0 ((centerX - radius).tdiv 10) ≤ gx ∧
         gx ≤ min (t.cols - 1) ((centerX + radius).tdiv 10) ∧
         max 0 ((centerY - radius).tdiv 10) ≤ gy ∧
         gy ≤ min (t.rows - 1) ((centerY + radius).tdiv 10) ∧
         0 ≤ radius ∧
         (10 * gx + 5 - centerX) ^ 2 + (10 * gy + 5 - centerY) ^ 2 < radius ^ 2
      then false
      else t.blocks gx gy }

example : cppInt (-25/10) = -2 := by decide
example : cppInt (47/10) = 4 := by decide
example : Int.tdiv (-25) 10 = -2 := by decide

/-- A fully solid 80×60 grid (the program's 800×600 world), the worst case for
the depenetration loop: a body here is embedded however far up it is pushed. -/
def allSolid : Terrain := ⟨80, 60, fun _ _ => true⟩

/-- Flat solid floor at world `y = 500` on the 80×60 grid: rows `gy ≥ 50`
occupied, everything above empty. -/
def floor500 : Terrain := ⟨80, 60, fun _ gy => decide (50 ≤ gy)⟩

example : Terrain.checkCollision floor500 ⟨100, 470, 30, 30⟩ = false := by decide
example : Terrain.checkCollision floor500 ⟨100, 2351/5, 30, 30⟩ = true := by decide
example : Terrain.checkCollision allSolid ⟨100, -30, 30, 30⟩ = false := by decide
example : Terrain.checkCollision allSolid ⟨100, -29, 30, 30⟩ = true := by decide
example : (Terrain.destroy allSolid 400 300 40).blocks 40 30 = false := by decide
example : (Terrain.destroy allSolid 400 300 40).blocks 40 34 = true := by decide

/-- The program's physics constants: `GRAVITY = 0.2f`, `WIND = 0.03f`. -/
def GRAVITY : ℚ := 1/5

/-- Horizontal wind acceleration applied to projectiles each tick. -/
def WIND : ℚ := 3/100

/-- The `struct Worm` state: position, velocity, integer health (`WORM_SIZE = 30`). -/
structure WormSt where
  x : ℚ
  y : ℚ
  vx : ℚ
  vy : ℚ
  health : Int
deriving DecidableEq

/-- The worm's bounding rectangle (top-left at `(x,y)`, side `WORM_SIZE = 30`). -/
def wormRect (x y : ℚ) : QRect := ⟨x, y, 30, 30⟩

/-- The `Worm::move(dx)` command: shift x by the commanded step. -/
def WormSt.move (w : WormSt) (dx : ℚ) : WormSt := { w with x := w.x + dx }

/-- The `Worm::jump()` command: set `vy = -6` only when currently resting (`vy == 0`). -/
def WormSt.jump (w : WormSt) : WormSt :=
  if w.vy = 0 then { w with vy := -6 } else w

/-- The depenetration `while`-loop body of the worm update: while the worm's
rectangle collides with terrain, move up one unit. The C++ loop is unbounded;
`fuel` is the standard shallow embedding of such a loop, and
`depenLoop_fuel_stable` below shows the result is fuel-independent once the
loop has exited, so any sufficiently large fuel computes the loop's value. -/
def depenLoop (t : Terrain) (x : ℚ) : Nat → ℚ → ℚ
  | 0, y => y
  | fuel + 1, y =>
    if Terrain.checkCollision t (wormRect x y) then depenLoop t x fuel (y - 1)
    else y

/-- One tick of the worm physics (`main` update-worms loop, lines 258–275):
gravity on `vy`, vertical integration, then — on terrain contact — the upward
depenetration loop and `vy = 0`. The later random-move branch is `wormTick`. -/
def wormTickPhysics (t : Terrain) (fuel : Nat) (w : WormSt) : WormSt :=
  let vy := w.vy + GRAVITY
  let y := w.y + vy
  if Terrain.checkCollision t (wormRect w.x y) then
    { w with y := depenLoop t w.x fuel y, vy := 0 }
  else
    { w with y := y, vy := vy }

/-- The scripted decision issued to the active worm on a move tick
(`rand() % 3`: left, right, or jump), or no command (inactive worm / off-tick). -/
inductive Cmd
  | left
  | right
  | jump
  | idle

/-- The horizontal displacement a command produces. -/
def cmdDx : Cmd → ℚ
  | .left => -2
  | .right => 2
  | .jump => 0
  | .idle => 0

/-- A full worm tick: physics (gravity, integration, depenetration) followed
by the optional scripted command. -/
def wormTick (t : Terrain) (fuel : Nat) (c : Cmd) (w : WormSt) : WormSt :=
  let w1 := wormTickPhysics t fuel w
  match c with
  | .left => w1.move (-2)
  | .right => w1.move 2
  | .jump => w1.jump
  | .idle => w1

/-- The `struct Projectile` state: position and velocity (`PROJECTILE_SIZE = 8`). -/
structure ProjSt where
  x : ℚ
  y : ℚ
  vx : ℚ
  vy : ℚ
deriving DecidableEq

/-- Projectile motion integration (`main`, lines 297–305): gravity on `vy`,
wind on `vx`, then position from the updated velocities. -/
def projIntegrate (p : ProjSt) : ProjSt :=
  let vy := p.vy + GRAVITY
  let vx := p.vx + WIND
  { x := p.x + vx, y := p.y + vy, vx := vx, vy := vy }

/-- The projectile's bounding rectangle. -/
def projRect (p : ProjSt) : QRect := ⟨p.x, p.y, 8, 8⟩

/-- The out-of-bounds test of the projectile loop (lines 308–309):
`x < 0 || x > SCREEN_WIDTH || y < 0 || y > SCREEN_HEIGHT`. -/
def outOfBounds (p : ProjSt) : Prop :=
  p.x < 0 ∨ p.x > 800 ∨ p.y < 0 ∨ p.y > 600

instance (p : ProjSt) : Decidable (outOfBounds p) := by
  unfold outOfBounds; infer_instance

/-- The explosion damage/knockback applied to one worm (lines 331–346):
distance from blast center to worm center; inside the influence radius
`EXPLOSION_MAX_SIZE = 80`, damage `30·(1 − d/80)` (truncated to int) is
subtracted from health and knockback `5·(1 − d/80)` along the unit offset is
added to velocity, with a constant extra `-2` on `vy`.
`sq` is the libm `sqrt` applied to `dx²+dy²`.  When `d = 0` the code divides
`0/0`: the IEEE result is NaN, so the updated worm has no rational value —
modelled as `none`. -/
def explodeWorm (px py : ℚ) (sq : ℚ → ℚ) (w : WormSt) : Option WormSt :=
  let dx := w.x + 15 - px
  let dy := w.y + 15 - py
  let d := sq (dx * dx + dy * dy)
  if d < 80 then
    if d = 0 then none
    else
      let damage := 30 * (1 - d / 80)
      let knockback := 5 * (1 - d / 80)
      some { w with health := w.health - cppInt damage,
                    vx := w.vx + dx / d * knockback,
                    vy := w.vy + (dy / d * knockback - 2) }
  else some w

/-- One tick of one projectile (lines 295–352): integrate; if out of bounds,
remove silently; else on terrain contact carve the terrain with radius
`EXPLOSION_MAX_SIZE / 2 = 40`, record an explosion, apply damage/knockback to
every worm, and remove; else keep flying. The result is the updated terrain,
worms, the explosions spawned this tick, and the surviving projectile (if
any); `none` overall if some worm update is undefined (NaN velocities). -/
def projectileTick (sq : ℚ → ℚ) (t : Terrain) (ws : List WormSt) (p : ProjSt) :
    Option (Terrain × List WormSt × List (ℚ × ℚ × Int) × Option ProjSt) :=
  let p1 := projIntegrate p
  if outOfBounds p1 then some (t, ws, [], none)
  else if Terrain.checkCollision t (projRect p1) then
    (ws.mapM (explodeWorm p1.x p1.y sq)).map fun ws2 =>
      (t.destroy (cppInt p1.x) (cppInt p1.y) 40, ws2, [(p1.x, p1.y, 40)], none)
  else some (t, ws, [], some p1)

/-- A concrete square-root oracle agreeing with `sqrtf` at the two points the
concrete scenarios evaluate it: `sqrtOracle 400 = 20` and `sqrtOracle 0 = 0`. -/
def sqrtOracle : ℚ → ℚ := fun s => if s = 400 then 20 else 0

example : explodeWorm 400 300 sqrtOracle ⟨405, 285, 0, 0, 100⟩ =
    some ⟨405, 285, 15/4, -2, 78⟩ := by decide
example : explodeWorm 400 300 sqrtOracle ⟨385, 285, 0, 0, 100⟩ = none := by decide
example : wormTickPhysics floor500 40 ⟨100, 470, 0, 0, 100⟩ =
    ⟨100, 2346/5, 0, 0, 100⟩ := by decide
example : depenLoop allSolid 100 40 5 = -30 := by decide

/-- The operations the game performs on the terrain after initialization:
carves (`Terrain::destroy`, triggered by detonations) and collision queries
(`Terrain::checkCollision`, which only reads). -/
inductive TerrainOp where
  | carve (cX cY radius : Int)
  | query (r : QRect)

/-- State effect of one terrain operation: a carve destroys, a query reads
(the C++ method mutates nothing). -/
def applyOp : TerrainOp → Terrain → Terrain
  | .carve cX cY radius, t => t.destroy cX cY radius
  | .query _, t => t

/-- A whole history of terrain operations, applied oldest first. -/
def applyOps : List TerrainOp → Terrain → Terrain
  | [], t => t
  | op :: ops, t => applyOps ops (applyOp op t)

/-- A one-cell solid terrain (10×10 world), for concrete witnesses. -/
def tiny : Terrain := ⟨1, 1, fun _ _ => true⟩

/-! ### Arithmetic helper lemmas: truncation, C++ division, scan-box covering -/

lemma cppInt_intCast (n : Int) : cppInt (n : ℚ) = n := by
  unfold cppInt
  split
  · exact Int.ceil_intCast n
  · exact Int.floor_intCast n

lemma cppInt_of_nonneg {q : ℚ} (h : 0 ≤ q) : cppInt q = ⌊q⌋ :=
  if_neg (not_lt.2 h)

lemma tdiv_ten_nonpos {a : Int} (h : a ≤ 0) : a.tdiv 10 ≤ 0 := by
  have h2 : a.tdiv 10 = -((-a).tdiv 10) := by rw [← Int.neg_tdiv, neg_neg]
  have h3 : (-a).tdiv 10 = (-a) / 10 := Int.tdiv_eq_ediv (by omega) (by norm_num)
  have h4 : (0 : Int) ≤ (-a) / 10 := Int.ediv_nonneg (by omega) (by norm_num)
  omega

/-- A cell index `g` whose column interval the rectangle reaches is not lost
below the clamped scan start `max 0 (trunc(q) tdiv 10)`. -/
lemma scan_lo_le {q : ℚ} {g : Int} (h0 : 0 ≤ g) (h : q < 10 * (g : ℚ) + 10) :
    max 0 ((cppInt q).tdiv 10) ≤ g := by
  rcases le_or_lt 0 q with hq | hq
  · have h1 : (⌊q⌋ : ℚ) < 10 * (g : ℚ) + 10 := lt_of_le_of_lt (Int.floor_le q) h
    have h2 : ⌊q⌋ < 10 * g + 10 := by exact_mod_cast h1
    have h3 : (0 : Int) ≤ ⌊q⌋ := Int.floor_nonneg.2 hq
    rw [cppInt_of_nonneg hq, Int.tdiv_eq_ediv h3 (by norm_num)]
    have h4 : ⌊q⌋ / 10 ≤ (10 * g + 9) / 10 := Int.ediv_le_ediv (by norm_num) (by omega)
    have h5 : (10 * g + 9) / 10 = g := by omega
    omega
  · rw [show cppInt q = ⌈q⌉ from if_pos hq]
    have h1 : ⌈q⌉ ≤ 0 := Int.ceil_le.2 (by exact_mod_cast hq.le)
    have h2 := tdiv_ten_nonpos h1
    omega

/-- A cell index `g` whose column interval the rectangle reaches is not lost
above the clamped scan end `min (C-1) (trunc(q) tdiv 10)`. -/
lemma le_scan_hi {q : ℚ} {g C : Int} (h0 : 0 ≤ g) (hC : g ≤ C - 1)
    (h : 10 * (g : ℚ) < q) : g ≤ min (C - 1) ((cppInt q).tdiv 10) := by
  have hq : 0 ≤ q := le_trans (by positivity) h.le
  have h1 : 10 * g ≤ ⌊q⌋ := Int.le_floor.2 (le_of_lt (by exact_mod_cast h))
  rw [cppInt_of_nonneg hq, Int.tdiv_eq_ediv (by omega) (by norm_num)]
  have h2 : (10 * g) / 10 ≤ ⌊q⌋ / 10 := Int.ediv_le_ediv (by norm_num) h1
  have h3 : (10 * g : Int) / 10 = g := by omega
  omega

/-- A cell whose center is strictly inside the blast disc is inside the
clamped carve box on the low side. -/
lemma carve_lo_le {c r g : Int} (h0 : 0 ≤ g) (h : c - r ≤ 10 * g + 4) :
    max 0 ((c - r).tdiv 10) ≤ g := by
  rcases le_or_lt (c - r) 0 with hn | hp
  · have := tdiv_ten_nonpos hn
    omega
  · rw [Int.tdiv_eq_ediv hp.le (by norm_num)]
    have h1 : (c - r) / 10 ≤ (10 * g + 4) / 10 := Int.ediv_le_ediv (by norm_num) h
    have h2 : (10 * g + 4) / 10 = g := by omega
    omega

/-- A cell whose center is strictly inside the blast disc is inside the
clamped carve box on the high side. -/
lemma carve_le_hi {c r g C : Int} (h0 : 0 ≤ g) (hC : g ≤ C - 1)
    (h : 10 * g + 6 ≤ c + r) : g ≤ min (C - 1) ((c + r).tdiv 10) := by
  have hpos : 0 ≤ c + r := by omega
  rw [Int.tdiv_eq_ediv hpos (by norm_num)]
  have h1 : (10 * g + 6) / 10 ≤ (c + r) / 10 := Int.ediv_le_ediv (by norm_num) h
  have h2 : (10 * g + 6 : Int) / 10 = g := by omega
  omega

/-! ### Characterization of `Terrain.checkCollision` -/

/-- The query `checkCollision` holds exactly when some occupied in-range cell strictly
overlaps the rectangle: the clamped scan box never misses such a cell. -/
lemma checkCollision_true_iff (t : Terrain) (r : QRect) :
    t.checkCollision r = true ↔
      ∃ gx gy : Int, 0 ≤ gx ∧ gx < t.cols ∧ 0 ≤ gy ∧ gy < t.rows ∧
        t.blocks gx gy = true ∧ rectsOverlap r (cellRect gx gy) := by
  unfold Terrain.checkCollision
  rw [decide_eq_true_iff]
  constructor
  · rintro ⟨gx, hgx, gy, hgy, hb, hov⟩
    rw [Finset.mem_Icc] at hgx hgy
    exact ⟨gx, gy, by omega, by omega, by omega, by omega, hb, hov⟩
  · rintro ⟨gx, gy, h1, h2, h3, h4, hb, hov⟩
    have hx := hov.2.2.2.2.1
    have hy := hov.2.2.2.2.2
    have px1 : r.x < 10 * (gx : ℚ) + 10 := by
      have h := lt_of_le_of_lt (le_max_left r.x (cellRect gx gy).x)
        (lt_of_lt_of_le hx (min_le_right _ _))
      simp only [cellRect] at h
      push_cast at h
      exact h
    have px2 : 10 * (gx : ℚ) < r.x + r.w := by
      have h := lt_of_le_of_lt (le_max_right r.x (cellRect gx gy).x)
        (lt_of_lt_of_le hx (min_le_left _ _))
      simp only [cellRect] at h
      push_cast at h
      exact h
    have py1 : r.y < 10 * (gy : ℚ) + 10 := by
      have h := lt_of_le_of_lt (le_max_left r.y (cellRect gx gy).y)
        (lt_of_lt_of_le hy (min_le_right _ _))
      simp only [cellRect] at h
      push_cast at h
      exact h
    have py2 : 10 * (gy : ℚ) < r.y + r.h := by
      have h := lt_of_le_of_lt (le_max_right r.y (cellRect gx gy).y)
        (lt_of_lt_of_le hy (min_le_left _ _))
      simp only [cellRect] at h
      push_cast at h
      exact h
    refine ⟨gx, ?_, gy, ?_, hb, hov⟩
    · rw [Finset.mem_Icc]
      exact ⟨scan_lo_le h1 px1, le_scan_hi h1 (by omega) px2⟩
    · rw [Finset.mem_Icc]
      exact ⟨scan_lo_le h3 py1, le_scan_hi h3 (by omega) py2⟩

/-! ### Characterization of `Terrain.destroy` -/

/-- For a non-negative radius, the carve box never cuts off a cell of the
grid whose center is strictly inside the blast disc: the clamped bounding
square is an over-approximation of the disc. -/
lemma destroy_blocks_eq (t : Terrain) (cX cY radius : Int) (hr : 0 ≤ radius)
    {gx gy : Int} (hx0 : 0 ≤ gx) (hx1 : gx < t.cols) (hy0 : 0 ≤ gy) (hy1 : gy < t.rows) :
    (t.destroy cX cY radius).blocks gx gy =
      if (10 * gx + 5 - cX) ^ 2 + (10 * gy + 5 - cY) ^ 2 < radius ^ 2
      then false else t.blocks gx gy := by
  unfold Terrain.destroy
  dsimp only
  by_cases hd : (10 * gx + 5 - cX) ^ 2 + (10 * gy + 5 - cY) ^ 2 < radius ^ 2
  · have hdx : (10 * gx + 5 - cX) ^ 2 < radius ^ 2 := by nlinarith [sq_nonneg (10 * gy + 5 - cY)]
    have hdy : (10 * gy + 5 - cY) ^ 2 < radius ^ 2 := by nlinarith [sq_nonneg (10 * gx + 5 - cX)]
    have hax : |10 * gx + 5 - cX| < radius := abs_lt_of_sq_lt_sq hdx hr
    have hay : |10 * gy + 5 - cY| < radius := abs_lt_of_sq_lt_sq hdy hr
    rw [abs_lt] at hax hay
    rw [if_pos, if_pos hd]
    exact ⟨carve_lo_le hx0 (by omega), carve_le_hi hx0 (by omega) (by omega),
           carve_lo_le hy0 (by omega), carve_le_hi hy0 (by omega) (by omega), hr, hd⟩
  · rw [if_neg hd, if_neg]
    intro hcontra
    exact hd hcontra.2.2.2.2.2

/-- Carving never sets a cell: occupancy only decreases pointwise. -/
lemma destroy_blocks_mono (t : Terrain) (cX cY radius : Int) {gx gy : Int}
    (h : (t.destroy cX cY radius).blocks gx gy = true) : t.blocks gx gy = true := by
  unfold Terrain.destroy at h
  dsimp only at h
  by_cases hc : max 0 ((cX - radius).tdiv 10) ≤ gx ∧
      gx ≤ min (t.cols - 1) ((cX + radius).tdiv 10) ∧
      max 0 ((cY - radius).tdiv 10) ≤ gy ∧
      gy ≤ min (t.rows - 1) ((cY + radius).tdiv 10) ∧
      0 ≤ radius ∧
      (10 * gx + 5 - cX) ^ 2 + (10 * gy + 5 - cY) ^ 2 < radius ^ 2
  · rw [if_pos hc] at h
    exact absurd h (by simp)
  · rwa [if_neg hc] at h

/-- Carving the same blast twice is the same as carving it once. -/
lemma destroy_idem (t : Terrain) (cX cY radius : Int) :
    (t.destroy cX cY radius).destroy cX cY radius = t.destroy cX cY radius := by
  unfold Terrain.destroy
  dsimp only
  congr 1
  funext gx gy
  by_cases hc : max 0 ((cX - radius).tdiv 10) ≤ gx ∧
      gx ≤ min (t.cols - 1) ((cX + radius).tdiv 10) ∧
      max 0 ((cY - radius).tdiv 10) ≤ gy ∧
      gy ≤ min (t.rows - 1) ((cY + radius).tdiv 10) ∧
      0 ≤ radius ∧
      (10 * gx + 5 - cX) ^ 2 + (10 * gy + 5 - cY) ^ 2 < radius ^ 2
  · rw [if_pos hc, if_pos hc]
  · rw [if_neg hc, if_neg hc]

/-! ### Fuel-independence of the depenetration loop -/

/-- Once the depenetration loop has exited (its result no longer collides),
running it with any additional fuel changes nothing: the fuel parameter is
only a device to express the unbounded C++ `while` loop. -/
lemma depenLoop_fuel_stable (t : Terrain) (x : ℚ) :
    ∀ (fuel extra : Nat) (y : ℚ),
      Terrain.checkCollision t (wormRect x (depenLoop t x fuel y)) = false →
      depenLoop t x (fuel + extra) y = depenLoop t x fuel y := by
  intro fuel
  induction fuel with
  | zero =>
    intro extra y h
    simp only [depenLoop] at h ⊢
    cases extra with
    | zero => rfl
    | succ e =>
      rw [Nat.zero_add]
      simp [depenLoop, h]
  | succ f ih =>
    intro extra y h
    by_cases hc : Terrain.checkCollision t (wormRect x y) = true
    · have e1 : depenLoop t x (f + 1) y = depenLoop t x f (y - 1) := by
        simp [depenLoop, hc]
      have e2 : depenLoop t x (f + 1 + extra) y = depenLoop t x (f + extra) (y - 1) := by
        rw [show f + 1 + extra = f + extra + 1 from by omega]
        simp [depenLoop, hc]
      rw [e1] at h
      rw [e1, e2]
      exact ih extra (y - 1) h
    · have hc' : Terrain.checkCollision t (wormRect x y) = false := by
        simpa using hc
      have e1 : depenLoop t x (f + 1) y = y := by simp [depenLoop, hc']
      have e2 : depenLoop t x (f + 1 + extra) y = y := by
        rw [show f + 1 + extra = f + extra + 1 from by omega]
        simp [depenLoop, hc']
      rw [e1, e2]

/-- Monotone reformulation: any fuel at least a sufficient one computes the
loop's exit value. -/
lemma depenLoop_eq_of_le (t : Terrain) (x : ℚ) {fuel fuel' : Nat} (y : ℚ)
    (hle : fuel ≤ fuel')
    (hdone : Terrain.checkCollision t (wormRect x (depenLoop t x fuel y)) = false) :
    depenLoop t x fuel' y = depenLoop t x fuel y := by
  obtain ⟨extra, rfl⟩ := Nat.exists_eq_add_of_le hle
  exact depenLoop_fuel_stable t x fuel extra y hdone

/-! ### Claim theorems -/

/-- C5: for every terrain and every valid (non-negative) radius,
`Terrain.destroy` clears exactly the in-range cells whose centers lie within
Euclidean distance `radius` of the center (the clamped bounding square never
cuts one off), leaves every other cell unchanged, and is idempotent. -/
theorem c5_destroy_exact_and_idem (t : Terrain) (cX cY radius : Int)
    (hr : 0 ≤ radius) :
    (∀ gx gy : Int, 0 ≤ gx → gx < t.cols → 0 ≤ gy → gy < t.rows →
        (t.destroy cX cY radius).blocks gx gy =
          if (10 * gx + 5 - cX) ^ 2 + (10 * gy + 5 - cY) ^ 2 < radius ^ 2
          then false else t.blocks gx gy)
    ∧ (t.destroy cX cY radius).destroy cX cY radius = t.destroy cX cY radius :=
  ⟨fun _ _ hx0 hx1 hy0 hy1 => destroy_blocks_eq t cX cY radius hr hx0 hx1 hy0 hy1,
   destroy_idem t cX cY radius⟩

/-- Witness for C5 at the program's blast radius 40 on the 80×60 grid. -/
theorem c5_destroy_exact_and_idem_witness :
    ((Terrain.destroy allSolid 400 300 40).blocks 40 30 =
      if (10 * 40 + 5 - 400) ^ 2 + (10 * 30 + 5 - 300) ^ 2 < 40 ^ 2
      then false else allSolid.blocks 40 30)
    ∧ (Terrain.destroy (Terrain.destroy allSolid 400 300 40) 400 300 40 =
        Terrain.destroy allSolid 400 300 40) :=
  ⟨(c5_destroy_exact_and_idem allSolid 400 300 40 (by decide)).1 40 30
      (by decide) (by decide) (by decide) (by decide),
   (c5_destroy_exact_and_idem allSolid 400 300 40 (by decide)).2⟩

/-- C6: after a carve, `checkCollision` is false on a rectangle all of whose
overlapping in-range cells were inside the cleared disc, and true on any
rectangle overlapping a still-occupied in-range cell. -/
theorem c6_checkCollision_after_destroy (t : Terrain) (cX cY radius : Int)
    (rect : QRect) (hr : 0 ≤ radius) :
    ((∀ gx gy : Int, 0 ≤ gx → gx < t.cols → 0 ≤ gy → gy < t.rows →
        rectsOverlap rect (cellRect gx gy) →
        (10 * gx + 5 - cX) ^ 2 + (10 * gy + 5 - cY) ^ 2 < radius ^ 2) →
      (t.destroy cX cY radius).checkCollision rect = false)
    ∧ (∀ gx gy : Int, 0 ≤ gx → gx < t.cols → 0 ≤ gy → gy < t.rows →
        (t.destroy cX cY radius).blocks gx gy = true →
        rectsOverlap rect (cellRect gx gy) →
        (t.destroy cX cY radius).checkCollision rect = true) := by
  constructor
  · intro hcleared
    by_contra hne
    have htrue : (t.destroy cX cY radius).checkCollision rect = true := by
      simpa using hne
    rw [checkCollision_true_iff] at htrue
    obtain ⟨gx, gy, h1, h2, h3, h4, hb, hov⟩ := htrue
    have h2' : gx < t.cols := h2
    have h4' : gy < t.rows := h4
    have hdisc := hcleared gx gy h1 h2' h3 h4' hov
    have heq := destroy_blocks_eq t cX cY radius hr h1 h2' h3 h4'
    rw [if_pos hdisc] at heq
    rw [heq] at hb
    exact Bool.false_ne_true hb
  · intro gx gy h1 h2 h3 h4 hb hov
    rw [checkCollision_true_iff]
    exact ⟨gx, gy, h1, h2, h3, h4, hb, hov⟩

/-- Witness for C6: a blast centered on the single cell of `tiny` clears it
(query false); a blast clamped entirely away leaves it occupied (query true). -/
theorem c6_checkCollision_after_destroy_witness :
    (Terrain.checkCollision (Terrain.destroy tiny 5 5 10) ⟨2, 2, 4, 4⟩ = false)
    ∧ (Terrain.checkCollision (Terrain.destroy tiny 1000 1000 10) ⟨2, 2, 4, 4⟩ = true) := by
  constructor
  · refine (c6_checkCollision_after_destroy tiny 5 5 10 ⟨2, 2, 4, 4⟩ (by decide)).1 ?_
    intro gx gy h1 h2 h3 h4 hov
    have hcols : tiny.cols = 1 := rfl
    have hrows : tiny.rows = 1 := rfl
    have hgx : gx = 0 := by omega
    have hgy : gy = 0 := by omega
    subst hgx
    subst hgy
    decide
  · exact (c6_checkCollision_after_destroy tiny 1000 1000 10 ⟨2, 2, 4, 4⟩ (by decide)).2
      0 0 (by decide) (by decide) (by decide) (by decide) (by decide) (by decide)

/-- C9: occupancy never grows — across any history of carves and collision
queries, a cell occupied afterwards was already occupied before (strictly
destructible terrain, no regrowth). -/
theorem c9_no_regrowth : ∀ (ops : List TerrainOp) (t : Terrain) (gx gy : Int),
    (applyOps ops t).blocks gx gy = true → t.blocks gx gy = true := by
  intro ops
  induction ops with
  | nil => intro t gx gy h; exact h
  | cons op rest ih =>
    intro t gx gy h
    have h2 := ih (applyOp op t) gx gy h
    cases op with
    | carve cX cY radius => exact destroy_blocks_mono t cX cY radius h2
    | query r => exact h2

/-- Witness for C9 on a concrete two-operation history. -/
theorem c9_no_regrowth_witness : allSolid.blocks 0 0 = true :=
  c9_no_regrowth [TerrainOp.carve 5 5 0, TerrainOp.query ⟨0, 0, 10, 10⟩]
    allSolid 0 0 (by decide)

/-- C2: the claim posits a fixed iteration cap and an invalid-spawn error.
The code has neither: on a fully solid terrain (worst case for a body spawned
embedded), the unbounded loop runs until the clamped scan box empties above
the world top and silently returns the body at `y = -30` (above the world,
bottom edge touching `y = 0`), with no error value in its result type — for
every fuel beyond the 35 iterations actually taken, i.e. for the C++ loop. -/
theorem c2_depenetration_uncapped_silent : ∀ fuel : Nat, 36 ≤ fuel →
    depenLoop allSolid 100 fuel 5 = -30 := by
  intro fuel hf
  have hdone : Terrain.checkCollision allSolid
      (wormRect 100 (depenLoop allSolid 100 36 5)) = false := by decide
  have h36 : depenLoop allSolid 100 36 5 = -30 := by decide
  exact (depenLoop_eq_of_le allSolid 100 5 hf hdone).trans h36

/-- Witness for C2 at the minimal sufficient fuel. -/
theorem c2_depenetration_uncapped_silent_witness :
    depenLoop allSolid 100 36 5 = -30 :=
  c2_depenetration_uncapped_silent 36 (by decide)

/-- C1: the claim states that at distance 0 a fallback unit vector replaces
the division by the zero distance. The code has no such guard: for any square
root with `sqrt 0 = 0` (true of IEEE `sqrtf`), a detonation exactly at a
worm's center divides `0/0`, so the resulting velocities are NaN — the worm
update is undefined (`none`), not a well-defined fallback knockback. -/
theorem c1_zero_distance_knockback_undefined :
    ∀ (sq : ℚ → ℚ), sq 0 = 0 → ∀ w : WormSt,
      explodeWorm (w.x + 15) (w.y + 15) sq w = none := by
  intro sq hsq w
  simp only [explodeWorm]
  norm_num [hsq]

/-- Witness for C1: blast at (400, 300), worm top-left (385, 285), so the worm
center coincides with the blast center. -/
theorem c1_zero_distance_knockback_undefined_witness :
    explodeWorm (385 + 15) (285 + 15) sqrtOracle ⟨385, 285, 0, 0, 100⟩ = none :=
  c1_zero_distance_knockback_undefined sqrtOracle (by decide) ⟨385, 285, 0, 0, 100⟩

/-- C3 counterexample: in the claimed scenario (blast at (400,300), worm
centered at (420,300)), the code does not produce the claimed damage 15 and
knockback 5/2: the actual update differs. -/
theorem c3_scenario_counterexample :
    explodeWorm 400 300 sqrtOracle ⟨405, 285, 0, 0, 100⟩ ≠
      some ⟨405, 285, 5/2, -2, 85⟩ := by decide

/-- C3 amended: the code's influence radius is `EXPLOSION_MAX_SIZE = 80`
(twice the carve radius 40), so at distance 20 the damage is
`30·(1 − 20/80) = 22.5`, truncated to 22, and the knockback magnitude is
`5·(1 − 20/80) = 3.75` along +x, with the constant upward bias −2 on vy. -/
theorem c3_amended_influence80 :
    ∀ (sq : ℚ → ℚ), sq 400 = 20 → ∀ (vx vy : ℚ) (hp : Int),
      explodeWorm 400 300 sq ⟨405, 285, vx, vy, hp⟩ =
        some ⟨405, 285, vx + 15/4, vy - 2, hp - 22⟩ := by
  intro sq hsq vx vy hp
  have h400 : ((405 : ℚ) + 15 - 400) * (405 + 15 - 400) +
      ((285 : ℚ) + 15 - 300) * (285 + 15 - 300) = 400 := by norm_num
  have h22 : cppInt (30 * (1 - 20 / 80)) = 22 := by decide
  simp only [explodeWorm, h400, hsq, h22]
  norm_num
  ring

/-- Witness for C3 amended, at the concrete scenario state. -/
theorem c3_amended_influence80_witness :
    explodeWorm 400 300 sqrtOracle ⟨405, 285, 0, 0, 100⟩ =
      some ⟨405, 285, 0 + 15/4, 0 - 2, 100 - 22⟩ :=
  c3_amended_influence80 sqrtOracle (by decide) 0 0 100

/-- C4 counterexample: after one tick from (100, 470) with vy = 0 on the flat
floor at y = 500, the worm's y is not the claimed 470.2: the bottom edge
500.2 already penetrates the floor and the same tick's depenetration lifts
the worm a full 1.0 step. -/
theorem c4_first_tick_counterexample :
    (wormTickPhysics floor500 40 ⟨100, 470, 0, 0, 100⟩).y ≠ 2351/5 := by decide

/-- C4 amended: one tick from (100, 470, vy 0) integrates to y = 470.2
(bottom edge 500.2, already penetrating), and the same tick's depenetration
moves the worm up one full unit to y = 469.2 — bottom edge 499.2, strictly
above the surface, not exactly resting on it — with vy reset to 0. -/
theorem c4_amended_first_tick : ∀ fuel : Nat, 2 ≤ fuel →
    wormTickPhysics floor500 fuel ⟨100, 470, 0, 0, 100⟩ =
      ⟨100, 2346/5, 0, 0, 100⟩ := by
  intro fuel hf
  have hstep : wormTickPhysics floor500 fuel ⟨100, 470, 0, 0, 100⟩ =
      { x := 100, y := depenLoop floor500 100 fuel (470 + (0 + GRAVITY)),
        vx := 0, vy := 0, health := 100 } := by
    simp only [wormTickPhysics]
    rw [if_pos (by decide)]
  have hdl : depenLoop floor500 100 fuel (470 + (0 + GRAVITY)) =
      depenLoop floor500 100 2 (470 + (0 + GRAVITY)) :=
    depenLoop_eq_of_le floor500 100 (470 + (0 + GRAVITY)) hf (by decide)
  rw [hstep, hdl]
  decide

/-- Witness for C4 amended at a concrete fuel. -/
theorem c4_amended_first_tick_witness :
    wormTickPhysics floor500 40 ⟨100, 470, 0, 0, 100⟩ = ⟨100, 2346/5, 0, 0, 100⟩ :=
  c4_amended_first_tick 40 (by decide)

/-- C7 counterexample: a worm with vx = 5 does not move horizontally during
the kinematic step — `x += vx·dt` does not hold for actors. -/
theorem c7_worm_vx_counterexample :
    ¬ ((wormTickPhysics floor500 40 ⟨100, 100, 5, 0, 100⟩).x = 100 + 5) := by
  decide

/-- C7 amended: the step updates velocity before position with an implicit
fixed dt of 1: a projectile gains GRAVITY on vy and WIND on vx and then moves
by the updated velocities; a worm gains GRAVITY on vy and moves only
vertically — its x is untouched and vx is never integrated. No dt parameter
exists in the code. -/
theorem c7_amended_semi_implicit_dt1 :
    ∀ (t : Terrain) (fuel : Nat) (w : WormSt) (p : ProjSt),
      projIntegrate p =
        ⟨p.x + (p.vx + WIND), p.y + (p.vy + GRAVITY), p.vx + WIND, p.vy + GRAVITY⟩
      ∧ (wormTickPhysics t fuel w).x = w.x
      ∧ (wormTickPhysics t fuel w).y =
          (if Terrain.checkCollision t (wormRect w.x (w.y + (w.vy + GRAVITY)))
           then depenLoop t w.x fuel (w.y + (w.vy + GRAVITY))
           else w.y + (w.vy + GRAVITY))
      ∧ (wormTickPhysics t fuel w).vy =
          (if Terrain.checkCollision t (wormRect w.x (w.y + (w.vy + GRAVITY)))
           then 0 else w.vy + GRAVITY) := by
  intro t fuel w p
  refine ⟨rfl, ?_, ?_, ?_⟩ <;>
    by_cases hc : Terrain.checkCollision t (wormRect w.x (w.y + (w.vy + GRAVITY))) = true <;>
    simp [wormTickPhysics, hc]

/-- C8: a projectile that is out of bounds after integration is removed on
that tick with the terrain, worms and explosion list untouched — the bounds
check precedes the terrain-impact detonation. -/
theorem c8_out_of_bounds_removed_silently :
    ∀ (sq : ℚ → ℚ) (t : Terrain) (ws : List WormSt) (p : ProjSt),
      outOfBounds (projIntegrate p) →
      projectileTick sq t ws p = some (t, ws, [], none) := by
  intro sq t ws p h
  simp [projectileTick, h]

/-- Witness for C8: a projectile crossing x < 0 on the integration step. -/
theorem c8_out_of_bounds_removed_silently_witness :
    projectileTick sqrtOracle floor500 [⟨100, 470, 0, 0, 100⟩] ⟨2, 300, -10, 0⟩ =
      some (floor500, [⟨100, 470, 0, 0, 100⟩], [], none) :=
  c8_out_of_bounds_removed_silently sqrtOracle floor500
    [⟨100, 470, 0, 0, 100⟩] ⟨2, 300, -10, 0⟩ (by decide)

/-- C10: a worm's x position changes only through explicit move commands
(±2 for the scripted left/right, 0 for jump or no command); the physics step
never integrates vx into x, and the explosion knockback (which does add to
vx) leaves x unchanged. -/
theorem c10_x_changes_only_by_move :
    ∀ (t : Terrain) (fuel : Nat) (c : Cmd) (w : WormSt) (px py dxm : ℚ)
      (sq : ℚ → ℚ),
      (wormTick t fuel c w).x = w.x + cmdDx c
      ∧ (WormSt.move w dxm).x = w.x + dxm
      ∧ ((explodeWorm px py sq w).getD w).x = w.x := by
  intro t fuel c w px py dxm sq
  have hphys : (wormTickPhysics t fuel w).x = w.x := by
    simp only [wormTickPhysics]
    split <;> rfl
  refine ⟨?_, rfl, ?_⟩
  · cases c with
    | left => simp [wormTick, WormSt.move, cmdDx, hphys]
    | right => simp [wormTick, WormSt.move, cmdDx, hphys]
    | jump =>
      show ((wormTickPhysics t fuel w).jump).x = w.x + cmdDx Cmd.jump
      unfold WormSt.jump
      split <;> simp [cmdDx, hphys]
    | idle => simp [wormTick, cmdDx, hphys]
  · unfold explodeWorm
    simp only
    split
    · split
      · rfl
      · rfl
    · rfl

end WormsDemo
